import Mathlib

/-!
Verification development for the OpenBIM-DL runtime CLI.

Shallow embedding of the core pipeline of the repository:
`openbimdl/parser.py` (transformer output shapes), `openbimdl/ast.py`
(Expr/Stmt/Block/Document construction), `openbimdl/typecheck.py`
(structural and catalog checker), `openbimdl/graph.py` (semantic graph),
and `openbimdl/evaluator.py` (expression evaluator).

Python runtime values reachable in this core are modelled by the `Value`
inductive (`null`, numbers, strings, booleans, graph node references);
numbers are modelled by `Rat` (exact arithmetic stands in for Python
floats; no claim below depends on rounding).  Python exceptions raised by
the embedded code are modelled with `Except`.
-/

namespace OpenBIMDL

/-- Python runtime values visible to the evaluator. -/
inductive Value where
  | null
  | num (q : Rat)
  | str (s : String)
  | bool (b : Bool)
  | node (guid : String) (ifcType : String)
deriving DecidableEq, Repr

/-- Python truthiness (`bool(v)`) for the modelled value universe. -/
def truthy : Value → Bool
  | .null => false
  | .num q => q != 0
  | .str s => s != ""
  | .bool b => b
  | .node _ _ => true

/-- Python `==` on the modelled value universe: booleans compare
numerically with numbers (`True == 1`), distinct kinds are otherwise
unequal, `NodeRef` dataclasses compare fieldwise. -/
def pyEq : Value → Value → Bool
  | .null, .null => true
  | .num a, .num b => a == b
  | .num a, .bool b => a == (if b then (1 : Rat) else 0)
  | .bool a, .num b => (if a then (1 : Rat) else 0) == b
  | .bool a, .bool b => a == b
  | .str a, .str b => a == b
  | .node g t, .node g2 t2 => g == g2 && t == t2
  | _, _ => false

/-- Numeric view of a value: Python treats `bool` as an integer. -/
def toNum : Value → Option Rat
  | .num q => some q
  | .bool b => some (if b then 1 else 0)
  | _ => none

/-! ## Expressions (`openbimdl/ast.py`, `Expr` / `Expr.from_raw`)

The parser emits raw expression dicts `{"_expr": tag, ...}`; `RawExpr`
models such a dict (`notDict` models `None` or any non-dict / tagless
input, which `Expr.from_raw` coerces to a null literal).  Access-chain
parts are dicts `{"kind": "ident" | "attr" | "index" | "unknown", ...}`,
modelled by the parametric `PartG` so the same shape serves raw parts
(over `RawExpr`) and converted parts (over `Expr`). -/

/-- One part of an access chain (`parser.py:_ToDictTransformer.access`). -/
inductive PartG (α : Type) where
  | ident (name : String)
  | attr (name : String)
  | index (e : α)
  | unknown
deriving Repr

/-- The dict `kind` tag of an access part, as read by the evaluator. -/
def PartG.kind : PartG α → String
  | .ident _ => "ident"
  | .attr _ => "attr"
  | .index _ => "index"
  | .unknown => "unknown"

/-- Raw parser expression output.  Field names follow the dict keys the
code reads: `tag` is `raw["_expr"]`, and `value`, `op`, `left`, `right`,
`val`, `fn`, `args`, `parts` are `raw.get(...)` of the same keys (`val`
is the key `"value"` of unary operations; `value` the literal payload).
Missing keys are `none` / `[]`. -/
inductive RawExpr where
  | notDict
  | mk (tag : String) (value : Value) (op : Option String)
       (left : Option RawExpr) (right : Option RawExpr) (val : Option RawExpr)
       (fn : Option String) (args : List RawExpr) (parts : List (PartG RawExpr))

/-- Typed expression node (`ast.py:Expr`).  The Python class stores
`kind : str` plus a data dict; each constructor here carries exactly the
data-dict fields `Expr.from_raw` writes for that shape.  `lit` covers the
literal shapes, whose `kind` remains a free string exactly as in the
source (the evaluator branches on it at run time). -/
inductive Expr where
  | lit (kind : String) (value : Value)
  | binop (op : Option String) (left : Expr) (right : Expr)
  | unop (op : Option String) (val : Expr)
  | call (fn : Option String) (args : List Expr)
  | access (parts : List (PartG Expr))

/-- Mirrors `expr.kind` as stored by `ast.py`. -/
def Expr.kind : Expr → String
  | .lit k _ => k
  | .binop .. => "binop"
  | .unop .. => "unop"
  | .call .. => "call"
  | .access _ => "access"

/-- The tags accepted by `Expr.from_raw` (`ast.py` line 44). -/
def allowedExprTags : List String :=
  ["number", "string", "bool", "null", "call", "access", "binop", "unop"]

mutual

/-- Mirrors `ast.py:Expr.from_raw`: convert the parser dict to `Expr`; unknown or
malformed shapes are defensively coerced to a null literal. -/
def Expr.from_raw : RawExpr → Expr
  | .notDict => .lit "null" .null
  | .mk tag value op left right val fn args parts =>
    if !(allowedExprTags.contains tag) then .lit "null" .null
    else if tag == "binop" then
      .binop op (Expr.from_raw_opt left) (Expr.from_raw_opt right)
    else if tag == "unop" then
      .unop op (Expr.from_raw_opt val)
    else if tag == "call" then
      .call fn (Expr.from_raw_list args)
    else if tag == "access" then
      .access (Expr.from_raw_parts parts)
    else
      .lit tag value

/-- Mirrors `Expr.from_raw(raw.get(key))`: a missing key yields `from_raw(None)`,
i.e. a null literal. -/
def Expr.from_raw_opt : Option RawExpr → Expr
  | none => .lit "null" .null
  | some e => Expr.from_raw e

/-- Argument-list conversion (`[Expr.from_raw(a) for a in raw["args"]]`). -/
def Expr.from_raw_list : List RawExpr → List Expr
  | [] => []
  | e :: es => Expr.from_raw e :: Expr.from_raw_list es

/-- Access-part conversion: index parts recurse into `from_raw`, all other
parts pass through unchanged (`ast.py` lines 71-79). -/
def Expr.from_raw_parts : List (PartG RawExpr) → List (PartG Expr)
  | [] => []
  | .index e :: ps => .index (Expr.from_raw e) :: Expr.from_raw_parts ps
  | .ident n :: ps => .ident n :: Expr.from_raw_parts ps
  | .attr n :: ps => .attr n :: Expr.from_raw_parts ps
  | .unknown :: ps => .unknown :: Expr.from_raw_parts ps

end

/-! ## Statements, blocks, documents (`openbimdl/ast.py`) -/

/-- A raw parser statement dict.  `type` is `raw.get("type")` (with key
presence modelled by `Option`); the remaining fields are the dict keys the
code ever reads (`name`, `expr`, `target`, `fn`, `args`, `features`).
A `none` entry of `features` models a non-dict element, which
`Stmt.from_raw` skips. -/
inductive RawStmt where
  | mk (type : Option String) (name : Option String) (expr : Option RawExpr)
       (target : Option String) (fn : Option String) (args : List RawExpr)
       (features : List (Option RawStmt))

/-- Typed statement (`ast.py:Stmt`): `kind` plus the data-dict fields the
code reads downstream.  `dataType` is the `"type"` key that `data =
dict(raw)` copies verbatim into the data dict (the evaluator reads it in
its `select` branch); it is `none` only for the defensive fallback
statement, whose data dict has no `"type"` key.  The `expr` field holds
the converted `Expr` when `Stmt.from_raw` converted one; statement shapes
whose raw `"expr"` value is left unconverted keep `none` here, matching
the `isinstance(expr, Expr)` guards downstream. -/
inductive Stmt where
  | mk (kind : String) (dataType : Option String) (name : Option String)
       (expr : Option Expr) (target : Option String) (fn : Option String)
       (args : List Expr) (features : List Stmt)

def Stmt.kind : Stmt → String | .mk k _ _ _ _ _ _ _ => k
def Stmt.dataType : Stmt → Option String | .mk _ t _ _ _ _ _ _ => t
def Stmt.name : Stmt → Option String | .mk _ _ n _ _ _ _ _ => n
def Stmt.expr : Stmt → Option Expr | .mk _ _ _ e _ _ _ _ => e
def Stmt.target : Stmt → Option String | .mk _ _ _ _ t _ _ _ => t
def Stmt.fn : Stmt → Option String | .mk _ _ _ _ _ f _ _ => f
def Stmt.args : Stmt → List Expr | .mk _ _ _ _ _ _ a _ => a
def Stmt.features : Stmt → List Stmt | .mk _ _ _ _ _ _ _ fs => fs

/-- The statement kinds `Stmt.from_raw` recognises (`ast.py` lines 115-127). -/
def knownStmtKinds : List String :=
  ["assign", "emit", "select", "where", "label", "format", "path", "by",
   "feature", "node_features", "edge_features"]

/-- The kinds whose `"expr"` entry is converted (`ast.py` line 131). -/
def exprStmtKinds : List String :=
  ["assign", "emit", "select", "where", "label", "feature"]

mutual

/-- Mirrors `ast.py:Stmt.from_raw`.  Unknown statement types fall back to a
defensive `assign` carrying the name `__invalid__` and a null expression
(its data dict has neither a `"type"` nor a `"target"`/`"fn"` key).
For the expression statements, `data = dict(raw)` with `data["expr"]`
converted when the key is present; for `by`, the args are converted while
a raw `"expr"` value would stay an unconverted dict — downstream code only
consults `Expr` instances, so it is modelled as absent; for grouping
statements the data dict is rebuilt to hold only converted `features`;
`format`/`path` keep the raw dict as is.  Fields a given shape's readers
never consult are defaulted. -/
def Stmt.from_raw : RawStmt → Stmt
  | .mk type name expr target fn args features =>
    match type with
    | none => .mk "assign" none (some "__invalid__") (some (.lit "null" .null))
                 none none [] []
    | some k =>
      if !(knownStmtKinds.contains k) then
        .mk "assign" none (some "__invalid__") (some (.lit "null" .null))
            none none [] []
      else if exprStmtKinds.contains k then
        .mk k (some k) name (expr.map Expr.from_raw) target fn [] []
      else if k == "by" then
        .mk "by" (some "by") name none target fn (Expr.from_raw_list args) []
      else if k == "node_features" || k == "edge_features" then
        .mk k none none none none none [] (Stmt.from_raw_features features)
      else
        -- format / path: `data = dict(raw)`, nothing converted
        .mk k (some k) name none target fn [] []

/-- Feature-list conversion: non-dict entries are skipped
(`ast.py` lines 142-148). -/
def Stmt.from_raw_features : List (Option RawStmt) → List Stmt
  | [] => []
  | none :: fs => Stmt.from_raw_features fs
  | some f :: fs => Stmt.from_raw f :: Stmt.from_raw_features fs

end

/-- Mirrors `ast.py:Block`. -/
structure Block where
  kind : String
  statements : List Stmt

/-- A raw block body entry: `none` models a non-dict element. -/
def RawBody := List (Option RawStmt)

/-- Mirrors `ast.py:Block.from_raw`: keep exactly the entries that are dicts with
a `"type"` key, converting each with `Stmt.from_raw`. -/
def Block.from_raw (kind : String) (body : RawBody) : Block :=
  ⟨kind, body.filterMap fun e =>
    match e with
    | none => none
    | some s =>
      match s with
      | .mk type _ _ _ _ _ _ =>
        if type.isSome then some (Stmt.from_raw s) else none⟩

/-- A raw parsed block `{"_kind": ..., "body": [...]}`; a `None` body is
normalised to `[]` by `body or []` in `Block.from_raw`. -/
structure RawBlock where
  body : RawBody

/-- The parser-output structure consumed by `Document.from_parsed`
(see the docstring of `ast.py:Document.from_parsed`): the expected shape,
with optional blocks as `Option` and the two block lists as lists
(a missing key behaves as the empty list). -/
structure Parsed where
  source : Option RawBlock
  views : List RawBlock
  derive : Option RawBlock
  synthesize : Option RawBlock
  split : Option RawBlock
  exports : List RawBlock

/-- Mirrors `ast.py:Document`. -/
structure Document where
  source : Block
  views : List Block
  derive : Block
  synthesize : Option Block
  split : Option Block
  exports : List Block

/-- Mirrors `ast.py:Document.from_parsed`: raises `ValueError` exactly for a
missing source block, a missing derive block, or an empty/missing export
list, in that order; otherwise builds the document. -/
def Document.from_parsed (parsed : Parsed) : Except String Document :=
  if parsed.source.isNone then
    .error "Recipe is missing required 'source' block."
  else if parsed.derive.isNone then
    .error "Recipe is missing required 'derive' block."
  else if parsed.exports.isEmpty then
    .error "Recipe must include at least one 'export' block."
  else
    .ok
      { source := Block.from_raw "source" ((parsed.source.map RawBlock.body).getD [])
        views := parsed.views.map fun v => Block.from_raw "view" v.body
        derive := Block.from_raw "derive" ((parsed.derive.map RawBlock.body).getD [])
        synthesize := parsed.synthesize.map fun b => Block.from_raw "synthesize" b.body
        split := parsed.split.map fun b => Block.from_raw "split" b.body
        exports := parsed.exports.map fun e => Block.from_raw "export" e.body }

/-! ## Parser productions (`openbimdl/parser.py`, `_ToDictTransformer`)

The grammar/transformer layer is embedded at the level of the dicts the
transformer emits; each helper below mirrors one transformer method. -/

/-- Mirrors `_ToDictTransformer.number`: `{"_expr": "number", "value": float(...)}`. -/
def parser_number (q : Rat) : RawExpr :=
  .mk "number" (.num q) none none none none none [] []

/-- Mirrors `_ToDictTransformer.string`. -/
def parser_string (s : String) : RawExpr :=
  .mk "string" (.str s) none none none none none [] []

/-- Mirrors `_ToDictTransformer.true` / `.false`. -/
def parser_bool (b : Bool) : RawExpr :=
  .mk "bool" (.bool b) none none none none none [] []

/-- Mirrors `_ToDictTransformer.null`. -/
def parser_null : RawExpr :=
  .mk "null" .null none none none none none [] []

/-- Mirrors `_ToDictTransformer._binop`. -/
def parser_binop (op : String) (l r : RawExpr) : RawExpr :=
  .mk "binop" .null (some op) (some l) (some r) none none [] []

/-- Mirrors `_ToDictTransformer.not_op` / `.neg`. -/
def parser_unop (op : String) (v : RawExpr) : RawExpr :=
  .mk "unop" .null (some op) none none (some v) none [] []

/-- Mirrors `_ToDictTransformer.func_call`. -/
def parser_func_call (fn : String) (args : List RawExpr) : RawExpr :=
  .mk "call" .null none none none none (some fn) args []

/-- An item following the leading identifier of an `access` production:
a `Token` (a further `.IDENT`), an `indexer` dict
(`{"_expr": "index", "expr": ...}`), or anything else. -/
inductive AccessItem where
  | tok (s : String)
  | indexer (e : RawExpr)
  | other

/-- Mirrors `_ToDictTransformer.access`: the leading identifier becomes a part of
kind `"ident"`, further tokens become `"attr"` parts, indexer dicts
become `"index"` parts, anything else an `"unknown"` part. -/
def parser_access (base : String) (rest : List AccessItem) : RawExpr :=
  .mk "access" .null none none none none none []
    (.ident base :: rest.map fun it =>
      match it with
      | .tok s => .attr s
      | .indexer e => .index e
      | .other => .unknown)

/-- Mirrors `_ToDictTransformer.assign_stmt`: `{"type": "assign", "name": ..., "expr": ...}`. -/
def parser_assign_stmt (name : String) (expr : RawExpr) : RawStmt :=
  .mk (some "assign") (some name) (some expr) none none [] []

/-- Mirrors `_ToDictTransformer.select_stmt`: `{"type": "select", "target": ...}`.
Note the type name appears under the `"target"` key; the `"type"` key
holds the statement tag `"select"`. -/
def parser_select_stmt (target : String) : RawStmt :=
  .mk (some "select") none none (some target) none [] []

/-- Mirrors `_ToDictTransformer.where_stmt`: `{"type": "where", "expr": ...}`. -/
def parser_where_stmt (expr : RawExpr) : RawStmt :=
  .mk (some "where") none (some expr) none none [] []

/-! ## Semantic graph (`openbimdl/graph.py`) -/

/-- Mirrors `graph.py:NodeRef`. -/
structure NodeRef where
  guid : String
  ifcType : String
deriving DecidableEq, Repr

/-- Mirrors `graph.py:EdgeRef`. -/
structure EdgeRef where
  source : String
  target : String
  kind : String
deriving DecidableEq, Repr

/-- A model entity as seen by the graph builder: its `GlobalId` (with `""`
standing for a missing or empty id — the code only ever tests the id for
truthiness or uses it as a key after that test, so `None` and `""` are
indistinguishable) and its `is_a()` type tag. -/
structure Entity where
  guid : String
  isA : String
deriving DecidableEq, Repr

/-- A one-to-many relationship record (`IfcRelContainedInSpatialStructure`,
`IfcRelAggregates`, `IfcRelDefinesByType`): an optional relating entity
and an optional collection of related entities (`none` models a missing /
`None` attribute; the code also skips an empty collection, which is
falsy). -/
structure Rel1N where
  relating : Option Entity
  related : Option (List Entity)

/-- A one-to-one relationship record (the three `connects_to` shapes). -/
structure Rel11 where
  relA : Option Entity
  relB : Option Entity

/-- The model snapshot the graph builder consumes: all entities plus the
relationship records returned by `model.raw().by_type(...)` for each of
the four relation categories. -/
structure ModelSnapshot where
  entities : List Entity
  relContained : List Rel1N
  relAggregates : List Rel1N
  relDefinesByType : List Rel1N
  relConnectsElements : List Rel11
  relConnectsPorts : List Rel11
  relConnectsPortToElement : List Rel11

/-- Mirrors `graph.py:SemanticGraph` state.  `nodes` is the `_nodes` dict in
insertion order (its keys are unique by construction); `byType` is the
`_by_type` dict as an association list.  The `_out` and `_in` dicts both
receive every edge exactly once (keyed by source resp. target), so their
joint content is the single insertion-ordered list `edges`; a per-key
list `_out[g]` is recovered as `edges.filter (·.source = g)`, preserving
order. -/
structure SemanticGraph where
  nodes : List NodeRef
  byType : List (String × List String)
  edges : List EdgeRef

def SemanticGraph.empty : SemanticGraph := ⟨[], [], []⟩

/-- Mirrors `guid in self._nodes`. -/
def SemanticGraph.hasNode (g : SemanticGraph) (guid : String) : Bool :=
  g.nodes.any fun n => n.guid == guid

/-- Mirrors `self._nodes.get(guid)` (`graph.py:SemanticGraph.node`). -/
def SemanticGraph.node (g : SemanticGraph) (guid : String) : Option NodeRef :=
  g.nodes.find? fun n => n.guid == guid

/-- Mirrors `self._by_type.get(t, [])`. -/
def SemanticGraph.guidsOfType (g : SemanticGraph) (t : String) : List String :=
  ((g.byType.find? fun p => p.1 == t).map Prod.snd).getD []

/-- Mirrors `graph.py:SemanticGraph.nodes_of_type`. -/
def SemanticGraph.nodes_of_type (g : SemanticGraph) (t : String) : List NodeRef :=
  (g.guidsOfType t).filterMap fun gid =>
    if g.hasNode gid then g.node gid else none

/-- Mirrors `self._by_type.setdefault(t, []).append(gid)`. -/
def byTypeAppend (m : List (String × List String)) (t gid : String) :
    List (String × List String) :=
  if m.any fun p => p.1 == t then
    m.map fun p => if p.1 == t then (p.1, p.2 ++ [gid]) else p
  else
    m ++ [(t, [gid])]

/-- Mirrors `graph.py:SemanticGraph._add_node`: skip falsy guids and duplicates
(first occurrence wins), otherwise append to both indices. -/
def SemanticGraph.add_node (g : SemanticGraph) (guid ifcType : String) :
    SemanticGraph :=
  if guid == "" then g
  else if g.hasNode guid then g
  else { g with nodes := g.nodes ++ [⟨guid, ifcType⟩],
                byType := byTypeAppend g.byType ifcType guid }

/-- Mirrors `graph.py:SemanticGraph._add_edge`: drop the edge if either guid is
falsy or either endpoint is not in the node index. -/
def SemanticGraph.add_edge (g : SemanticGraph) (s t k : String) :
    SemanticGraph :=
  if s == "" || t == "" then g
  else if !(g.hasNode s) || !(g.hasNode t) then g
  else { g with edges := g.edges ++ [⟨s, t, k⟩] }

/-- Mirrors `graph.py:SemanticGraph.out_edges`. -/
def SemanticGraph.out_edges (g : SemanticGraph) (guid : String)
    (kind : Option String) : List EdgeRef :=
  let es := g.edges.filter fun e => e.source == guid
  match kind with
  | none => es
  | some k => es.filter fun e => e.kind == k

/-- Mirrors `graph.py:SemanticGraph.in_edges`. -/
def SemanticGraph.in_edges (g : SemanticGraph) (guid : String)
    (kind : Option String) : List EdgeRef :=
  let es := g.edges.filter fun e => e.target == guid
  match kind with
  | none => es
  | some k => es.filter fun e => e.kind == k

/-- Mirrors `graph.py:SemanticGraph.degree`: for no filter, the lengths of the raw
`_out`/`_in` entries; with a filter, the lengths of the filtered views. -/
def SemanticGraph.degree (g : SemanticGraph) (guid : String)
    (kind : Option String) : Nat :=
  match kind with
  | none =>
    (g.edges.filter fun e => e.source == guid).length
      + (g.edges.filter fun e => e.target == guid).length
  | some k =>
    (g.out_edges guid (some k)).length + (g.in_edges guid (some k)).length

/-- Mirrors `graph.py:SemanticGraph._index_nodes`: add a node for every entity
with a truthy `GlobalId` (`_add_node` re-checks the guid and skips
duplicates). -/
def indexNodes (entities : List Entity) (g : SemanticGraph) : SemanticGraph :=
  entities.foldl (fun g ent =>
    if ent.guid != "" then g.add_node ent.guid ent.isA else g) g

/-- Candidate edge triples `(source, target, kind)` scanned from a batch of
one-to-many records; the per-record guards mirror `_build_edges_contained_in`
(and its two siblings), which skip records with a missing relating side,
a missing/empty related collection, or a falsy relating guid, and skip
related entities with a falsy guid.  The loops never read the graph, so
the scan is staged into a triple list folded with `_add_edge`. -/
def rel1NTriples (rels : List Rel1N) (flip : Bool) (kind : String) :
    List (String × String × String) :=
  rels.flatMap fun r =>
    match r.relating, r.related with
    | some relating, some related =>
      if related.isEmpty then []
      else if relating.guid == "" then []
      else related.filterMap fun el =>
        if el.guid != "" then
          some (if flip then (relating.guid, el.guid, kind)
                else (el.guid, relating.guid, kind))
        else none
    | _, _ => []

/-- Candidate triples from one-to-one records (`_build_edges_connects_to`
shapes): skip a record whose either side or either guid is missing. -/
def rel11Triples (rels : List Rel11) (kind : String) :
    List (String × String × String) :=
  rels.flatMap fun r =>
    match r.relA, r.relB with
    | some a, some b =>
      if a.guid != "" && b.guid != "" then [(a.guid, b.guid, kind)] else []
    | _, _ => []

/-- Mirrors `set(rel_whitelist) if rel_whitelist else None`: an empty whitelist is
falsy and behaves like no whitelist. -/
def normWhitelist (wl : Option (List String)) : Option (List String) :=
  match wl with
  | none => none
  | some l => if l.isEmpty then none else some l

/-- Mirrors `graph.py:SemanticGraph._allow`. -/
def allowKind (wl : Option (List String)) (k : String) : Bool :=
  match wl with
  | none => true
  | some l => l.contains k

/-- The complete candidate edge scan of `_build` in source order:
`contained_in` (element → container), `aggregates` (whole → part),
`type_of` (instance → type), then the three `connects_to` shapes; a
category is skipped entirely when the whitelist excludes it. -/
def buildTriples (m : ModelSnapshot) (wl : Option (List String)) :
    List (String × String × String) :=
  (if allowKind wl "contained_in" then
      rel1NTriples m.relContained false "contained_in" else [])
    ++ (if allowKind wl "aggregates" then
      rel1NTriples m.relAggregates true "aggregates" else [])
    ++ (if allowKind wl "type_of" then
      rel1NTriples m.relDefinesByType false "type_of" else [])
    ++ (if allowKind wl "connects_to" then
      rel11Triples m.relConnectsElements "connects_to"
        ++ rel11Triples m.relConnectsPorts "connects_to"
        ++ rel11Triples m.relConnectsPortToElement "connects_to" else [])

/-- Mirrors `graph.py:SemanticGraph.__init__` / `_build`: index the nodes, then
fold `_add_edge` over the scanned relationship records. -/
def buildGraph (m : ModelSnapshot) (wl : Option (List String)) :
    SemanticGraph :=
  let wl := normWhitelist wl
  (buildTriples m wl).foldl
    (fun g t => g.add_edge t.1 t.2.1 t.2.2)
    (indexNodes m.entities SemanticGraph.empty)

/-! ## Evaluator (`openbimdl/evaluator.py`) -/

/-- The exceptions evaluation can raise: `EvaluationError` with its
message shapes, a `TypeError` from applying a Python operator to
incompatible values, and a `KeyError` from a missing data-dict key. -/
inductive EvalError where
  | unsupportedExprKind (kind : String)
  | unsupportedOperator (op : Option String)
  | unsupportedUnary (op : Option String)
  | functionNotImplemented (fn : Option String)
  | typeMismatch
  | keyMissing (key : String)
deriving DecidableEq, Repr

/-- Python `a + b` on the modelled values (numbers and booleans add
numerically, strings concatenate, anything else raises `TypeError`). -/
def pyAdd (a b : Value) : Except EvalError Value :=
  match toNum a, toNum b with
  | some x, some y => .ok (.num (x + y))
  | _, _ =>
    match a, b with
    | .str s, .str t => .ok (.str (s ++ t))
    | _, _ => .error .typeMismatch

/-- Python `a - b`. -/
def pySub (a b : Value) : Except EvalError Value :=
  match toNum a, toNum b with
  | some x, some y => .ok (.num (x - y))
  | _, _ => .error .typeMismatch

/-- Python `a * b`: numeric product; a string times a boolean repeats the
string 0 or 1 times (booleans are ints; a float multiplier raises). -/
def pyMul (a b : Value) : Except EvalError Value :=
  match toNum a, toNum b with
  | some x, some y => .ok (.num (x * y))
  | _, _ =>
    match a, b with
    | .str s, .bool b => .ok (.str (if b then s else ""))
    | .bool b, .str s => .ok (.str (if b then s else ""))
    | _, _ => .error .typeMismatch

/-- The guarded division of `_apply_binop`: `a / b if b != 0 else None`.
`b != 0` is Python equality against the integer 0 (so `False` also counts
as zero); when `b` is nonzero the quotient is taken, raising `TypeError`
on non-numeric operands. -/
def pyDiv (a b : Value) : Except EvalError Value :=
  if pyEq b (.num 0) then .ok .null
  else
    match toNum a, toNum b with
    | some x, some y => .ok (.num (x / y))
    | _, _ => .error .typeMismatch

/-- Python `a < b`: numeric comparison across numbers/booleans,
lexicographic on strings, `TypeError` otherwise. -/
def pyLt (a b : Value) : Except EvalError Value :=
  match toNum a, toNum b with
  | some x, some y => .ok (.bool (decide (x < y)))
  | _, _ =>
    match a, b with
    | .str s, .str t => .ok (.bool (decide (s < t)))
    | _, _ => .error .typeMismatch

/-- Python `a <= b`. -/
def pyLe (a b : Value) : Except EvalError Value :=
  match toNum a, toNum b with
  | some x, some y => .ok (.bool (decide (x ≤ y)))
  | _, _ =>
    match a, b with
    | .str s, .str t => .ok (.bool (decide (s < t) || s == t))
    | _, _ => .error .typeMismatch

/-- Mirrors `evaluator.py:Evaluator._apply_binop`, in the source's branch order;
`>` and `>=` mirror `<`/`<=` with the operands swapped, which matches the
Python comparison semantics on this value universe. -/
def apply_binop (op : Option String) (a b : Value) : Except EvalError Value :=
  if op == some "+" then pyAdd a b
  else if op == some "-" then pySub a b
  else if op == some "*" then pyMul a b
  else if op == some "/" then pyDiv a b
  else if op == some "==" then .ok (.bool (pyEq a b))
  else if op == some "!=" then .ok (.bool (!pyEq a b))
  else if op == some "<" then pyLt a b
  else if op == some ">" then pyLt b a
  else if op == some "<=" then pyLe a b
  else if op == some ">=" then pyLe b a
  else if op == some "and" then .ok (.bool (truthy a && truthy b))
  else if op == some "or" then .ok (.bool (truthy a || truthy b))
  else .error (.unsupportedOperator op)

/-- Mirrors `evaluator.py:Evaluator._apply_unop`. -/
def apply_unop (op : Option String) (v : Value) : Except EvalError Value :=
  if op == some "not" then .ok (.bool (!truthy v))
  else if op == some "-" then
    match toNum v with
    | some x => .ok (.num (-x))
    | none => .error .typeMismatch
  else .error (.unsupportedUnary op)

/-- The model collaborator surface the evaluator consults
(`ifc_loader.py:IFCModel`, treated as an external oracle: each function
may return an arbitrary value).  `entityByGuid` models
`entity_by_guid` (a dict lookup that can miss). -/
structure ModelOracle where
  entityByGuid : String → Option Entity
  getAttr : Option Entity → String → Value
  getName : Option Entity → Value
  getPset : Option Entity → Value → Value → Value
  getBbox : Option Entity → Value
  hasGeometry : Option Entity → Bool

/-- Mirrors `evaluator.py:Evaluator._dispatch_function`: the fixed builtin
dispatch table; any other name is a hard `EvaluationError`. -/
def dispatch_function (m : ModelOracle) (g : SemanticGraph)
    (fn : Option String) (node : NodeRef) (args : List Value) :
    Except EvalError Value :=
  let entity := m.entityByGuid node.guid
  if fn == some "ifc.type" then .ok (.str node.ifcType)
  else if fn == some "ifc.name" then .ok (m.getName entity)
  else if fn == some "pset.get" then
    match args with
    | [a, b] => .ok (m.getPset entity a b)
    | _ => .ok .null
  else if fn == some "geom.bbox" then .ok (m.getBbox entity)
  else if fn == some "geom.exists" then .ok (.bool (m.hasGeometry entity))
  else if fn == some "degree" then .ok (.num (g.degree node.guid none))
  else .error (.functionNotImplemented fn)

/-- The access-chain loop of `_eval_expr`: starting from the node object,
a part of kind `"attr"` replaces the base by
`get_attr(entity_by_guid(node.guid), name)`; any other part kind returns
`None` immediately; the final base is returned. -/
def accessLoop (m : ModelOracle) (node : NodeRef) :
    List (PartG Expr) → Value → Value
  | [], base => base
  | p :: ps, _base =>
    match p with
    | .attr nm =>
      accessLoop m node ps (m.getAttr (m.entityByGuid node.guid) nm)
    | _ => .null

mutual

/-- Mirrors `evaluator.py:Evaluator._eval_expr`, the recursive tree walk, with the
source's branch order: `"literal"`, `"null"`, `"binop"`, `"unop"`,
`"call"`, `"access"`, then the unsupported-kind failure.  Note the AST
builder emits literal kinds `"number"`/`"string"`/`"bool"`/`"null"`,
while only the kinds `"literal"` and `"null"` are handled here. -/
def eval_expr (m : ModelOracle) (g : SemanticGraph) (node : NodeRef) :
    Expr → Except EvalError Value
  | .lit k v =>
    if k == "literal" then .ok v
    else if k == "null" then .ok .null
    else .error (.unsupportedExprKind k)
  | .binop op l r => do
    let a ← eval_expr m g node l
    let b ← eval_expr m g node r
    apply_binop op a b
  | .unop op e => do
    let v ← eval_expr m g node e
    apply_unop op v
  | .call fn args => do
    let vs ← eval_args m g node args
    dispatch_function m g fn node vs
  | .access parts =>
    .ok (accessLoop m node parts (.node node.guid node.ifcType))

/-- The argument list comprehension of the `"call"` branch, evaluated left
to right with the first failure propagating. -/
def eval_args (m : ModelOracle) (g : SemanticGraph) (node : NodeRef) :
    List Expr → Except EvalError (List Value)
  | [] => .ok []
  | e :: es => do
    let v ← eval_expr m g node e
    let vs ← eval_args m g node es
    .ok (v :: vs)

end

/-- The where-statement comprehension
`[node for node in current if self._eval_expr(expr, node)]`. -/
def filterNodes (m : ModelOracle) (g : SemanticGraph) (e : Expr) :
    List NodeRef → Except EvalError (List NodeRef)
  | [] => .ok []
  | n :: ns => do
    let v ← eval_expr m g n e
    let rest ← filterNodes m g e ns
    .ok (if truthy v then n :: rest else rest)

/-- One view statement applied to the current candidate set
(`_apply_views` inner loop): `select` replaces the set by
`nodes_of_type(stmt.data["type"])` — the `"type"` entry of a select
statement's data dict is the tag `"select"`, not the select target —
`where` filters it, anything else leaves it unchanged. -/
def applyViewStmt (m : ModelOracle) (g : SemanticGraph)
    (current : List NodeRef) (stmt : Stmt) :
    Except EvalError (List NodeRef) :=
  if stmt.kind == "select" then
    match stmt.dataType with
    | some t => .ok (g.nodes_of_type t)
    | none => .error (.keyMissing "type")
  else if stmt.kind == "where" then
    match stmt.expr with
    | some e => filterNodes m g e current
    | none => .error (.keyMissing "expr")
  else .ok current

def viewStmtsFold (m : ModelOracle) (g : SemanticGraph) :
    List Stmt → List NodeRef → Except EvalError (List NodeRef)
  | [], current => .ok current
  | s :: ss, current => do
    let next ← applyViewStmt m g current s
    viewStmtsFold m g ss next

/-- The final guid de-duplication of `_apply_views` (a `seen` set plus an
order-preserving output list). -/
def dedupByGuid : List NodeRef → List String → List NodeRef
  | [], _ => []
  | n :: ns, seen =>
    if seen.contains n.guid then dedupByGuid ns seen
    else n :: dedupByGuid ns (n.guid :: seen)

def viewsFold (m : ModelOracle) (g : SemanticGraph) :
    List Block → List NodeRef → Except EvalError (List NodeRef)
  | [], acc => .ok acc
  | v :: vs, acc => do
    let current ← viewStmtsFold m g v.statements g.nodes
    viewsFold m g vs (acc ++ current)

/-- Mirrors `evaluator.py:Evaluator._apply_views`. -/
def apply_views (m : ModelOracle) (g : SemanticGraph) (doc : Document) :
    Except EvalError (List NodeRef) :=
  if doc.views.isEmpty then .ok g.nodes
  else do
    let result ← viewsFold m g doc.views []
    .ok (dedupByGuid result [])

/-- One output row: the dict, as an insertion-ordered association list. -/
abbrev Row := List (String × Value)

/-- Python dict assignment `row[name] = value`: overwrite in place, else
append. -/
def rowSet (r : Row) (k : String) (v : Value) : Row :=
  if r.any fun p => p.1 == k then
    r.map fun p => if p.1 == k then (p.1, v) else p
  else r ++ [(k, v)]

/-- The per-node statement loop of `_apply_derive`: only statements of
kind `"feature"` contribute; their `data["name"]` / `data["expr"]`
lookups raise `KeyError` when absent. -/
def deriveRowFold (m : ModelOracle) (g : SemanticGraph) (node : NodeRef) :
    List Stmt → Row → Except EvalError Row
  | [], row => .ok row
  | s :: ss, row =>
    if s.kind == "feature" then
      match s.name with
      | none => .error (.keyMissing "name")
      | some nm =>
        match s.expr with
        | none => .error (.keyMissing "expr")
        | some e => do
          let v ← eval_expr m g node e
          deriveRowFold m g node ss (rowSet row nm v)
    else deriveRowFold m g node ss row

/-- Mirrors `evaluator.py:Evaluator._apply_derive`: one row per selected node,
keyed first by `"guid"`. -/
def apply_derive (m : ModelOracle) (g : SemanticGraph) (doc : Document) :
    List NodeRef → Except EvalError (List Row)
  | [] => .ok []
  | n :: ns => do
    let row ← deriveRowFold m g n doc.derive.statements [("guid", .str n.guid)]
    let rest ← apply_derive m g doc ns
    .ok (row :: rest)

/-- Mirrors `evaluator.py:Evaluator.evaluate`. -/
def evaluate (m : ModelOracle) (g : SemanticGraph) (doc : Document) :
    Except EvalError (List Row) := do
  let selected ← apply_views m g doc
  apply_derive m g doc selected

/-! ## Structural & catalog checker (`openbimdl/typecheck.py`) -/

/-- Mirrors `typecheck.py:TypeDiagnostic`. -/
structure TypeDiagnostic where
  code : String
  message : String
  block : String
  stmtKind : String
  stmtName : Option String := none
deriving DecidableEq, Repr

/-- Mirrors `typecheck.py:BUILTIN_FUNCTIONS_V01`, the closed builtin catalog
(a set; only membership is consulted). -/
def BUILTIN_FUNCTIONS_V01 : List String :=
  ["guid", "id", "exists", "coalesce", "hash", "seed",
   "ifc.type", "ifc.schema", "ifc.attr", "ifc.name", "ifc.predefined",
   "ifc.is_a", "ifc.global_placement",
   "pset.get", "pset.has", "pset.keys", "pset.list", "pset.text",
   "pset.numeric",
   "qto.get", "qto.has", "qto.net_area", "qto.net_volume", "qto.gross_area",
   "rel.out", "rel.in", "rel.edges", "rel.kinds",
   "contained_in", "container_chain", "type_of", "aggregates", "decomposes",
   "assigned_to", "connects_to", "voids", "fills", "spaces",
   "degree", "degree_in", "degree_out", "neighbors", "subgraph", "path_to",
   "geom.exists", "geom.bbox", "geom.centroid", "geom.dims", "geom.volume",
   "geom.area", "geom.orientation", "geom.signature", "geom.mesh",
   "geom.pointcloud",
   "text.describe", "text.concat", "text.lower", "text.normalize",
   "text.tokens",
   "ml.onehot", "ml.vocab", "ml.bucket", "ml.embed_hash", "ml.standardize",
   "synth.jitter_bbox", "synth.drop_pset", "synth.drop_feature",
   "synth.noise_numeric", "synth.upsample", "synth.downsample",
   "synth.permute_within",
   "building", "storey", "project", "system", "hash_group"]

mutual

/-- Mirrors `typecheck.py:_extract_calls`: fully qualified function names found in
an expression, depth first — a call contributes its own (truthy) name and
then its arguments' names; binary/unary operations recurse into operands;
access chains recurse into index sub-expressions; literals contribute
nothing. -/
def extract_calls : Expr → List String
  | .call fn args =>
    (match fn with
     | some f => if f != "" then [f] else []
     | none => []) ++ extract_calls_list args
  | .binop _ l r => extract_calls l ++ extract_calls r
  | .unop _ v => extract_calls v
  | .access parts => extract_calls_parts parts
  | .lit _ _ => []

def extract_calls_list : List Expr → List String
  | [] => []
  | e :: es => extract_calls e ++ extract_calls_list es

def extract_calls_parts : List (PartG Expr) → List String
  | [] => []
  | .index e :: ps => extract_calls e ++ extract_calls_parts ps
  | _ :: ps => extract_calls_parts ps

end

/-- The FN001 message for an unknown function name. -/
def fn001Message (fn : String) : String :=
  "Unknown function '" ++ fn ++
    "'. Not present in OpenBIM-DL v0.1 built-in catalog."

/-- The FN002 message for an unknown split operator. -/
def fn002Message (fn : String) : String :=
  "Unknown split operator '" ++ fn ++
    "'. Not present in OpenBIM-DL v0.1 catalog."

/-- Mirrors `typecheck.py:_check_stmt_expr_calls`: one FN001 diagnostic per
unknown name in the statement's converted expression; for a `by`
statement additionally one FN002 for a present, truthy, unknown operator
name and one FN001 per unknown name inside each argument expression. -/
def check_stmt_expr_calls (blockKind : String) (st : Stmt) :
    List TypeDiagnostic :=
  (match st.expr with
   | some e =>
     (extract_calls e).flatMap fun fn =>
       if BUILTIN_FUNCTIONS_V01.contains fn then []
       else [⟨"FN001", fn001Message fn, blockKind, st.kind, st.name⟩]
   | none => []) ++
  (if st.kind == "by" then
    (match st.fn with
     | some f =>
       if f != "" && !(BUILTIN_FUNCTIONS_V01.contains f) then
         [⟨"FN002", fn002Message f, blockKind, "by", none⟩]
       else []
     | none => []) ++
    (st.args.flatMap fun a =>
      (extract_calls a).flatMap fun fn =>
        if BUILTIN_FUNCTIONS_V01.contains fn then []
        else [⟨"FN001", fn001Message fn, blockKind, "by", none⟩])
   else [])

/-- Walk one block for `_check_known_functions`. -/
def checkBlockCalls (b : Block) : List TypeDiagnostic :=
  b.statements.flatMap fun st => check_stmt_expr_calls b.kind st

/-- Mirrors `typecheck.py:_check_known_functions`: all blocks in document order. -/
def check_known_functions (doc : Document) : List TypeDiagnostic :=
  checkBlockCalls doc.source
    ++ doc.views.flatMap checkBlockCalls
    ++ checkBlockCalls doc.derive
    ++ ((doc.synthesize.map checkBlockCalls).getD [])
    ++ ((doc.split.map checkBlockCalls).getD [])
    ++ doc.exports.flatMap checkBlockCalls

/-- Mirrors `typecheck.py:_check_source`. -/
def check_source (b : Block) : List TypeDiagnostic :=
  if b.statements.any fun s => s.kind == "path" then []
  else [⟨"SRC001", "source block must include: path \"...\";",
         "source", "path", none⟩]

/-- Mirrors `typecheck.py:_check_view`. -/
def check_view (b : Block) (index : Nat) : List TypeDiagnostic :=
  if b.statements.any fun s => s.kind == "select" then []
  else [⟨"VIEW001",
         "view[" ++ toString index ++
           "] has no select statement; view will have no effect unless selection is defined.",
         "view", "select", none⟩]

/-- Mirrors `typecheck.py:_check_derive`. -/
def check_derive (b : Block) : List TypeDiagnostic :=
  if b.statements.any fun s => s.kind == "feature" || s.kind == "emit" then []
  else [⟨"DER001",
         "derive block should include at least one feature or emit statement.",
         "derive", "feature", none⟩]

/-- Mirrors `typecheck.py:_check_synthesize`: one SYN001 per assign/feature/emit
statement whose converted expression contains no `synth.`-qualified
call. -/
def contains_synth_call (e : Expr) : Bool :=
  (extract_calls e).any fun fn => fn.startsWith "synth."

def check_synthesize (b : Block) : List TypeDiagnostic :=
  b.statements.flatMap fun s =>
    if s.kind == "assign" || s.kind == "feature" || s.kind == "emit" then
      match s.expr with
      | some e =>
        if !(contains_synth_call e) then
          [⟨"SYN001",
            "synthesize statements should primarily call synth.* functions (v0.2 recommendation).",
            "synthesize", s.kind, s.name⟩]
        else []
      | none => []
    else []

/-- Mirrors `typecheck.py:_check_split`. -/
def check_split (b : Block) : List TypeDiagnostic :=
  if b.statements.any fun s => s.kind == "by" then []
  else [⟨"SPL001", "split block should include: by <operator>(...);",
         "split", "by", none⟩]

/-- Mirrors `typecheck.py:_check_export`. -/
def check_export (b : Block) (index : Nat) : List TypeDiagnostic :=
  (if b.statements.any fun s => s.kind == "format" then []
   else [⟨"EXP001",
          "export[" ++ toString index ++ "] block must include: format <name>;",
          "export", "format", none⟩]) ++
  (if b.statements.any fun s => s.kind == "path" then []
   else [⟨"EXP002",
          "export[" ++ toString index ++ "] block must include: path \"...\";",
          "export", "path", none⟩])

/-- Enumerated flatMap helper mirroring `enumerate(...)`. -/
def enumFlatMap (f : α → Nat → List β) : List α → Nat → List β
  | [], _ => []
  | x :: xs, i => f x i ++ enumFlatMap f xs (i + 1)

/-- The complete diagnostic list `type_check_document` accumulates, in
source order: source, views, derive, synthesize?, split?, exports, then
the catalog validation across all blocks. -/
def allDiagnostics (doc : Document) : List TypeDiagnostic :=
  check_source doc.source
    ++ enumFlatMap (fun v i => check_view v i) doc.views 0
    ++ check_derive doc.derive
    ++ ((doc.synthesize.map check_synthesize).getD [])
    ++ ((doc.split.map check_split).getD [])
    ++ enumFlatMap (fun e i => check_export e i) doc.exports 0
    ++ check_known_functions doc

/-- Mirrors `typecheck.py:type_check_document`: collect every diagnostic, then
raise `TypeCheckError` with the whole batch exactly when it is
non-empty. -/
def type_check_document (doc : Document) : Except (List TypeDiagnostic) Unit :=
  if (allDiagnostics doc).isEmpty then .ok ()
  else .error (allDiagnostics doc)

/-! ## Specification-side definitions

`specStmtOccurrences` follows the words of the specification (§4.3 /
§8): "every function name referenced anywhere in any block's expressions
— including nested call arguments and the operator/arguments of a `by`
statement".  It therefore also descends into the feature statements
nested inside the grouping statements (`node_features` /
`edge_features`), which *are* statements of the block carrying
expressions.  Expression-level extraction is shared with the code's
`_extract_calls`, which demonstrably visits every expression position
(call names, nested arguments, operands, index sub-expressions); the
statement-level traversal is where spec and code can differ.  An
occurrence is a pair of the referenced name and whether it occurs as a
`by` operator name (diagnosed FN002) rather than an expression call
(FN001). -/

mutual

/-- All function-name occurrences of one statement, per the spec's words:
its expression's calls, for a `by` statement the operator name (when
present as a name) and the calls of its arguments, and the occurrences of
any nested feature statements. -/
def specStmtOccurrences : Stmt → List (String × Bool)
  | .mk kind _ _ expr _ fn args features =>
    (match expr with
     | some e => (extract_calls e).map (fun f => (f, false))
     | none => []) ++
    (if kind == "by" then
      (match fn with
       | some f => if f != "" then [(f, true)] else []
       | none => []) ++
      args.flatMap (fun a => (extract_calls a).map (fun f => (f, false)))
     else []) ++
    specStmtListOccurrences features

def specStmtListOccurrences : List Stmt → List (String × Bool)
  | [] => []
  | s :: ss => specStmtOccurrences s ++ specStmtListOccurrences ss

end

def specBlockOccurrences (b : Block) : List (String × Bool) :=
  specStmtListOccurrences b.statements

/-- All function-name occurrences of a document, blocks in document
order. -/
def specDocOccurrences (doc : Document) : List (String × Bool) :=
  specBlockOccurrences doc.source
    ++ doc.views.flatMap specBlockOccurrences
    ++ specBlockOccurrences doc.derive
    ++ ((doc.synthesize.map specBlockOccurrences).getD [])
    ++ ((doc.split.map specBlockOccurrences).getD [])
    ++ doc.exports.flatMap specBlockOccurrences

/-- The occurrences of names outside the closed catalog. -/
def specUnknownOccurrences (doc : Document) : List (String × Bool) :=
  (specDocOccurrences doc).filter fun p =>
    !(BUILTIN_FUNCTIONS_V01.contains p.1)

/-- No statement of the document carries nested feature statements (i.e.
no `node_features`/`edge_features` grouping statement with content). -/
def blockNoGroups (b : Block) : Bool :=
  b.statements.all fun s => s.features.isEmpty

def docNoGroups (doc : Document) : Bool :=
  blockNoGroups doc.source
    && doc.views.all blockNoGroups
    && blockNoGroups doc.derive
    && ((doc.synthesize.map blockNoGroups).getD true)
    && ((doc.split.map blockNoGroups).getD true)
    && doc.exports.all blockNoGroups

/-! ## Concrete instances used by the claim theorems -/

/-- A model collaborator all of whose queries return nothing: the
evaluator claims proved below hold for every collaborator, and the
concrete ones are evaluated against this one. -/
def trivOracle : ModelOracle where
  entityByGuid := fun _ => none
  getAttr := fun _ _ => .null
  getName := fun _ => .null
  getPset := fun _ _ _ => .null
  getBbox := fun _ => .null
  hasGeometry := fun _ => false

/-- A raw `path` statement dict (`{"type": "path", ...}`). -/
def rawPathStmt : RawStmt := .mk (some "path") none none none none [] []

/-- A raw `format` statement dict. -/
def rawFormatStmt : RawStmt := .mk (some "format") none none none none [] []

/-- A raw `feature` statement dict `{"type": "feature", "name": n,
"expr": e}`. -/
def rawFeatureStmt (n : String) (e : RawExpr) : RawStmt :=
  .mk (some "feature") (some n) (some e) none none [] []

/-- Claim C1 instance: a model with a single entity of type `B`. -/
def snapC1 : ModelSnapshot := ⟨[⟨"n1", "B"⟩], [], [], [], [], [], []⟩

def graphC1 : SemanticGraph := buildGraph snapC1 none

/-- Claim C1 instance: a document with one view whose statements are
`select A; select B;` (as the parser emits them, the type names in the
`"target"` entry). -/
def docC1 : Document :=
  { source := ⟨"source", []⟩
    views := [⟨"view", [Stmt.from_raw (parser_select_stmt "A"),
                        Stmt.from_raw (parser_select_stmt "B")]⟩]
    derive := ⟨"derive", []⟩
    synthesize := none
    split := none
    exports := [⟨"export", []⟩] }

/-- Claim C2 instance: a model with exactly three uniquely-identified
entities. -/
def snapC2 : ModelSnapshot :=
  ⟨[⟨"g1", "IfcWall"⟩, ⟨"g2", "IfcWall"⟩, ⟨"g3", "IfcDoor"⟩],
   [], [], [], [], [], []⟩

def graphC2 : SemanticGraph := buildGraph snapC2 none

/-- Claim C2 instance: the document of the recipe's statement content —
no views, and a derive block whose single statement is the parse of
`x = 1+2;`, which the grammar's `assign_stmt` production emits as an
`assign` statement (the grammar has no statement form producing a
`feature` statement). -/
def docC2 : Document :=
  { source := ⟨"source", []⟩
    views := []
    derive := ⟨"derive", [Stmt.from_raw (parser_assign_stmt "x"
      (parser_binop "+" (parser_number 1) (parser_number 2)))]⟩
    synthesize := none
    split := none
    exports := [⟨"export", []⟩] }

/-- Claim C6 counterexample document: structurally clean (source has
`path`, derive has a `feature`, the export has `format` and `path`), but
the derive block also holds a `node_features` grouping statement whose
nested feature calls the unknown function `bogus.fn`. -/
def docC6bad : Document :=
  { source := ⟨"source", [Stmt.from_raw rawPathStmt]⟩
    views := []
    derive := ⟨"derive",
      [Stmt.from_raw (rawFeatureStmt "h" parser_null),
       Stmt.from_raw (.mk (some "node_features") none none none none []
         [some (rawFeatureStmt "f" (parser_func_call "bogus.fn" []))])]⟩
    synthesize := none
    split := none
    exports := [⟨"export", [Stmt.from_raw rawFormatStmt,
                            Stmt.from_raw rawPathStmt]⟩] }

/-- Claim C6 witness document: a derive feature calling the unknown
function `nope.fn`, with no grouping statements. -/
def docC6wit : Document :=
  { source := ⟨"source", [Stmt.from_raw rawPathStmt]⟩
    views := []
    derive := ⟨"derive",
      [Stmt.from_raw (rawFeatureStmt "f" (parser_func_call "nope.fn" []))]⟩
    synthesize := none
    split := none
    exports := [⟨"export", [Stmt.from_raw rawFormatStmt,
                            Stmt.from_raw rawPathStmt]⟩] }

/-- Claim C8 witness instance: two entities (with one duplicated guid) and
one containment record. -/
def snapC8 : ModelSnapshot :=
  ⟨[⟨"a", "IfcWall"⟩, ⟨"b", "IfcBuildingStorey"⟩, ⟨"a", "IfcDoor"⟩],
   [⟨some ⟨"b", "IfcBuildingStorey"⟩, some [⟨"a", "IfcWall"⟩]⟩],
   [], [], [], [], []⟩

/-- Both endpoints of every stored edge are present in the node index. -/
def EdgeOk (g : SemanticGraph) : Prop :=
  ∀ e ∈ g.edges, g.hasNode e.source = true ∧ g.hasNode e.target = true

/-! ## Graph lemmas (claim C8) -/

theorem add_edge_nodes (g : SemanticGraph) (s t k : String) :
    (g.add_edge s t k).nodes = g.nodes := by
  unfold SemanticGraph.add_edge
  split_ifs <;> rfl

theorem add_edge_hasNode (g : SemanticGraph) (s t k x : String) :
    (g.add_edge s t k).hasNode x = g.hasNode x := by
  simp [SemanticGraph.hasNode, add_edge_nodes]

theorem add_edge_edgeOk {g : SemanticGraph} (s t k : String)
    (h : EdgeOk g) : EdgeOk (g.add_edge s t k) := by
  intro e he
  rw [add_edge_hasNode, add_edge_hasNode]
  revert he
  unfold SemanticGraph.add_edge
  split_ifs with h1 h2
  · exact h e
  · exact h e
  · intro he
    rcases List.mem_append.mp he with he | he
    · exact h e he
    · simp only [List.mem_singleton] at he
      subst he
      simp only [Bool.or_eq_true, Bool.not_eq_true'] at h2
      push_neg at h2
      exact ⟨Bool.of_not_eq_false h2.1, Bool.of_not_eq_false h2.2⟩

theorem foldl_add_edge_nodes (ts : List (String × String × String))
    (g : SemanticGraph) :
    (ts.foldl (fun g t => g.add_edge t.1 t.2.1 t.2.2) g).nodes = g.nodes := by
  induction ts generalizing g with
  | nil => rfl
  | cons t ts ih => rw [List.foldl_cons, ih, add_edge_nodes]

theorem foldl_add_edge_edgeOk (ts : List (String × String × String))
    (g : SemanticGraph) (h : EdgeOk g) :
    EdgeOk (ts.foldl (fun g t => g.add_edge t.1 t.2.1 t.2.2) g) := by
  induction ts generalizing g with
  | nil => exact h
  | cons t ts ih => exact ih _ (add_edge_edgeOk _ _ _ h)

theorem add_node_edges (g : SemanticGraph) (guid t : String) :
    (g.add_node guid t).edges = g.edges := by
  unfold SemanticGraph.add_node
  split_ifs <;> rfl

theorem indexNodes_cons (e : Entity) (es : List Entity)
    (g : SemanticGraph) :
    indexNodes (e :: es) g
      = indexNodes es
          (if (e.guid != "") = true then g.add_node e.guid e.isA else g) :=
  rfl

theorem indexNodes_edges (es : List Entity) (g : SemanticGraph) :
    (indexNodes es g).edges = g.edges := by
  induction es generalizing g with
  | nil => rfl
  | cons e es ih =>
    rw [indexNodes_cons, ih]
    split_ifs <;> simp [add_node_edges]

theorem buildGraph_edgeOk (m : ModelSnapshot) (wl : Option (List String)) :
    EdgeOk (buildGraph m wl) := by
  apply foldl_add_edge_edgeOk
  intro e he
  rw [indexNodes_edges] at he
  exact (List.not_mem_nil e he).elim

theorem hasNode_eq_isSome (g : SemanticGraph) (x : String) :
    g.hasNode x = (g.node x).isSome := by
  unfold SemanticGraph.hasNode SemanticGraph.node
  induction g.nodes with
  | nil => rfl
  | cons n ns ih =>
    by_cases h : (n.guid == x) = true
    · simp [List.any_cons, List.find?_cons, h]
    · rw [Bool.not_eq_true] at h
      simp [List.any_cons, List.find?_cons, h, ih]

theorem add_node_nodup {g : SemanticGraph} (guid t : String)
    (h : (g.nodes.map NodeRef.guid).Nodup) :
    ((g.add_node guid t).nodes.map NodeRef.guid).Nodup := by
  unfold SemanticGraph.add_node
  split_ifs with h1 h2
  · exact h
  · exact h
  · simp only [List.map_append, List.map_cons, List.map_nil]
    rw [List.nodup_append]
    refine ⟨h, List.nodup_singleton _, ?_⟩
    intro x hx hmem
    simp only [List.mem_singleton] at hmem
    subst hmem
    rcases List.mem_map.mp hx with ⟨n, hn, hg⟩
    apply h2
    simp only [SemanticGraph.hasNode, List.any_eq_true]
    exact ⟨n, hn, by simp [hg]⟩

theorem indexNodes_nodup (es : List Entity) (g : SemanticGraph)
    (h : (g.nodes.map NodeRef.guid).Nodup) :
    ((indexNodes es g).nodes.map NodeRef.guid).Nodup := by
  induction es generalizing g with
  | nil => exact h
  | cons e es ih =>
    rw [indexNodes_cons]
    split_ifs with he
    · exact ih _ (add_node_nodup _ _ h)
    · exact ih _ h

theorem find?_append' (l₁ l₂ : List α) (p : α → Bool) :
    (l₁ ++ l₂).find? p = ((l₁.find? p).orElse fun _ => l₂.find? p) := by
  induction l₁ with
  | nil => rfl
  | cons a l ih =>
    by_cases hpa : p a
    · simp [List.find?_cons, hpa]
    · simp only [List.cons_append, List.find?_cons,
        Bool.not_eq_true] at *
      rw [hpa]
      simpa [hpa] using ih

theorem indexNodes_node (es : List Entity) (g0 : SemanticGraph)
    (gid : String) (hgid : gid ≠ "") :
    (indexNodes es g0).node gid
      = ((g0.node gid).orElse fun _ =>
          (es.find? fun e => e.guid == gid).map fun e => ⟨e.guid, e.isA⟩) := by
  induction es generalizing g0 with
  | nil => cases h0 : g0.node gid <;> simp [indexNodes, Option.orElse, h0]
  | cons e es ih =>
    rw [indexNodes_cons]
    by_cases hpe : (e.guid == gid) = true
    · have hge : e.guid = gid := by simpa using hpe
      have hne : (e.guid != "") = true := by
        simp [bne_iff_ne, hge, hgid]
      rw [if_pos hne, ih]
      by_cases hsn : g0.hasNode gid = true
      · have hsome : (g0.node gid).isSome := by
          rw [← hasNode_eq_isSome]; exact hsn
        have hadd : g0.add_node e.guid e.isA = g0 := by
          unfold SemanticGraph.add_node
          rw [if_neg (by simp [hge, hgid]), if_pos (by rw [hge]; exact hsn)]
        rw [hadd]
        rcases Option.isSome_iff_exists.mp hsome with ⟨n, hn⟩
        simp [hn, List.find?_cons, hpe, Option.orElse]
      · have hnone : g0.node gid = none := by
          cases hx : g0.node gid with
          | none => rfl
          | some n =>
            exact absurd (by rw [hasNode_eq_isSome, hx]; rfl) hsn
        have haddnode : (g0.add_node e.guid e.isA).node gid
            = some ⟨e.guid, e.isA⟩ := by
          unfold SemanticGraph.add_node
          rw [if_neg (by simp [hge, hgid]),
            if_neg (by rw [hge]; simpa using hsn)]
          simp only [SemanticGraph.node]
          rw [find?_append', List.find?_eq_none.mpr ?_]
          · simp [List.find?_cons, hpe, Option.orElse]
          · intro n hn hx
            apply hsn
            rw [hasNode_eq_isSome]
            exact List.find?_isSome.mpr ⟨n, hn, hx⟩
        rw [haddnode]
        simp [hnone, List.find?_cons, hpe, hge, Option.orElse]
    · have hnodeeq : (if e.guid != "" then g0.add_node e.guid e.isA
          else g0).node gid = g0.node gid := by
        split_ifs with he
        · unfold SemanticGraph.add_node
          split_ifs with h1 h2
          · rfl
          · rfl
          · simp only [SemanticGraph.node]
            rw [find?_append']
            cases hx : g0.nodes.find? fun n => n.guid == gid with
            | some n => simp [SemanticGraph.node, Option.orElse]
            | none =>
              simp only [Option.orElse, List.find?_cons]
              rw [Bool.not_eq_true] at hpe
              simp [hpe]
        · rfl
      rw [ih, hnodeeq]
      have : (List.find? (fun e => e.guid == gid) (e :: es))
          = List.find? (fun e => e.guid == gid) es := by
        rw [Bool.not_eq_true] at hpe
        simp [List.find?_cons, hpe]
      rw [this]

theorem buildGraph_nodes (m : ModelSnapshot) (wl : Option (List String)) :
    (buildGraph m wl).nodes
      = (indexNodes m.entities SemanticGraph.empty).nodes := by
  unfold buildGraph
  exact foldl_add_edge_nodes _ _

/-! ## Catalog-checker lemmas (claim C6) -/

theorem flatMap_congr' {l : List α} {f g : α → List β}
    (h : ∀ x ∈ l, f x = g x) : l.flatMap f = l.flatMap g := by
  induction l with
  | nil => rfl
  | cons x xs ih =>
    rw [List.flatMap_cons, List.flatMap_cons, h x (by simp),
      ih fun y hy => h y (by simp [hy])]

theorem filter_flatMap' (l : List α) (f : α → List β) (q : β → Bool) :
    (l.flatMap f).filter q = l.flatMap fun x => (f x).filter q := by
  induction l with
  | nil => rfl
  | cons x xs ih =>
    rw [List.flatMap_cons, List.flatMap_cons, List.filter_append, ih]

theorem map_flatMap' (l : List α) (f : α → List β) (g : β → γ) :
    (l.flatMap f).map g = l.flatMap fun x => (f x).map g := by
  induction l with
  | nil => rfl
  | cons x xs ih =>
    rw [List.flatMap_cons, List.flatMap_cons, List.map_append, ih]

theorem specStmtListOccurrences_eq_flatMap (ss : List Stmt) :
    specStmtListOccurrences ss = ss.flatMap specStmtOccurrences := by
  induction ss with
  | nil => rfl
  | cons s ss ih => rw [specStmtListOccurrences, List.flatMap_cons, ih]

theorem flatMap_guard_filter_map (l : List String) (c : String → Bool)
    (d : String → TypeDiagnostic) (q : TypeDiagnostic → Bool)
    (hq : ∀ fn, q (d fn) = true) :
    ((l.flatMap fun fn => if c fn then [] else [d fn]).filter q).map
        TypeDiagnostic.message
      = (l.filter fun fn => !c fn).map fun fn => (d fn).message := by
  induction l with
  | nil => rfl
  | cons fn l ih =>
    by_cases h : c fn = true
    · simp only [List.flatMap_cons, List.filter_append, List.map_append,
        h, if_pos, List.filter_cons, List.filter_nil, Bool.not_true]
      simpa [h] using ih
    · rw [Bool.not_eq_true] at h
      simp only [List.flatMap_cons, List.filter_append, List.map_append,
        h, if_neg, Bool.false_eq_true, not_false_iff, List.filter_cons,
        hq fn, List.filter_nil, Bool.not_false]
      simpa [h, hq fn] using congrArg
        (List.cons (d fn).message) ih

theorem flatMap_guard_filter_nil (l : List String) (c : String → Bool)
    (d : String → TypeDiagnostic) (q : TypeDiagnostic → Bool)
    (hq : ∀ fn, q (d fn) = false) :
    (l.flatMap fun fn => if c fn then [] else [d fn]).filter q = [] := by
  induction l with
  | nil => rfl
  | cons fn l ih =>
    by_cases h : c fn = true <;>
      simp_all [List.flatMap_cons, List.filter_append, List.filter_cons]

theorem map_fst_filter_false {γ : Type} (l : List String)
    (c : String → Bool) (g : String → γ) :
    (((l.map fun f => (f, false)).filter
        fun (p : String × Bool) => !p.2 && c p.1).map fun p => g p.1)
      = (l.filter c).map g := by
  induction l with
  | nil => rfl
  | cons f fs ih => by_cases h : c f = true <;> simp [h, ih]

theorem filter_snd_false (l : List String) (c : String → Bool) :
    ((l.map fun f => (f, false)).filter
        fun (p : String × Bool) => p.2 && c p.1) = [] := by
  induction l with
  | nil => rfl
  | cons f fs ih => simp [ih]

theorem stmt_fn001 (bk : String) (st : Stmt) (h : st.features = []) :
    ((check_stmt_expr_calls bk st).filter fun d => d.code == "FN001").map
        TypeDiagnostic.message
      = ((specStmtOccurrences st).filter fun p =>
            !p.2 && !(BUILTIN_FUNCTIONS_V01.contains p.1)).map
          fun p => fn001Message p.1 := by
  obtain ⟨kind, dt, name, expr, target, fn, args, features⟩ := st
  simp only [Stmt.features] at h
  subst h
  simp only [check_stmt_expr_calls, specStmtOccurrences, Stmt.expr,
    Stmt.kind, Stmt.name, Stmt.fn, Stmt.args, specStmtListOccurrences,
    List.append_nil, List.filter_append, List.map_append]
  have hexpr :
      ((match expr with
        | some e => (extract_calls e).flatMap fun f =>
            if BUILTIN_FUNCTIONS_V01.contains f then []
            else [(⟨"FN001", fn001Message f, bk, kind, name⟩ : TypeDiagnostic)]
        | none => ([] : List TypeDiagnostic)).filter fun (d : TypeDiagnostic) =>
            d.code == "FN001").map TypeDiagnostic.message
        = ((match expr with
            | some e => (extract_calls e).map fun f => (f, false)
            | none => ([] : List (String × Bool))).filter
              fun (p : String × Bool) =>
              !p.2 && !(BUILTIN_FUNCTIONS_V01.contains p.1)).map
            fun (p : String × Bool) => fn001Message p.1 := by
    cases expr with
    | none => rfl
    | some e =>
      rw [flatMap_guard_filter_map _ _ _ _ (fun f => rfl)]
      exact (map_fst_filter_false _ _ _).symm
  rw [hexpr]
  congr 1
  by_cases hby : (kind == "by") = true
  · simp only [hby, if_true, List.filter_append, List.map_append]
    congr 1
    · -- the FN002 diagnostic (if any) does not survive the FN001 filter,
      -- and the operator occurrence does not survive the `!p.2` filter
      cases fn with
      | none => rfl
      | some f =>
        by_cases hfe : f = ""
        · subst hfe; simp
        · by_cases hfc : f ∈ BUILTIN_FUNCTIONS_V01
          · simp [hfe, hfc]
          · simp [hfe, hfc, List.filter_cons]
    · -- per-argument correspondence
      rw [filter_flatMap', map_flatMap', filter_flatMap', map_flatMap']
      apply flatMap_congr'
      intro a _
      rw [flatMap_guard_filter_map _ _ _ _ (fun f => rfl)]
      exact (map_fst_filter_false _ _ _).symm
  · simp [hby]

theorem stmt_fn002 (bk : String) (st : Stmt) (h : st.features = []) :
    ((check_stmt_expr_calls bk st).filter fun d => d.code == "FN002").map
        TypeDiagnostic.message
      = ((specStmtOccurrences st).filter fun p =>
            p.2 && !(BUILTIN_FUNCTIONS_V01.contains p.1)).map
          fun p => fn002Message p.1 := by
  obtain ⟨kind, dt, name, expr, target, fn, args, features⟩ := st
  simp only [Stmt.features] at h
  subst h
  simp only [check_stmt_expr_calls, specStmtOccurrences, Stmt.expr,
    Stmt.kind, Stmt.name, Stmt.fn, Stmt.args, specStmtListOccurrences,
    List.append_nil, List.filter_append, List.map_append]
  have hexpr :
      ((match expr with
        | some e => (extract_calls e).flatMap fun f =>
            if BUILTIN_FUNCTIONS_V01.contains f then []
            else [(⟨"FN001", fn001Message f, bk, kind, name⟩ : TypeDiagnostic)]
        | none => ([] : List TypeDiagnostic)).filter fun (d : TypeDiagnostic) =>
            d.code == "FN002").map TypeDiagnostic.message
        = ((match expr with
            | some e => (extract_calls e).map fun f => (f, false)
            | none => ([] : List (String × Bool))).filter
              fun (p : String × Bool) =>
              p.2 && !(BUILTIN_FUNCTIONS_V01.contains p.1)).map
            fun (p : String × Bool) => fn002Message p.1 := by
    cases expr with
    | none => rfl
    | some e =>
      rw [flatMap_guard_filter_nil _ _ _ _ (fun f => rfl)]
      simp [filter_snd_false]
  rw [hexpr]
  congr 1
  by_cases hby : (kind == "by") = true
  · simp only [hby, if_true, List.filter_append, List.map_append]
    congr 1
    · cases fn with
      | none => rfl
      | some f =>
        by_cases hfe : f = ""
        · subst hfe; simp
        · by_cases hfc : f ∈ BUILTIN_FUNCTIONS_V01
          · simp [hfe, hfc]
          · simp [hfe, hfc, List.filter_cons, fn002Message]
    · rw [filter_flatMap', map_flatMap', filter_flatMap', map_flatMap']
      apply flatMap_congr'
      intro a _
      rw [flatMap_guard_filter_nil _ _ _ _ (fun f => rfl)]
      simp [filter_snd_false]
  · simp [hby]

theorem mem_check_source_code {b : Block} {d : TypeDiagnostic}
    (h : d ∈ check_source b) : d.code = "SRC001" := by
  unfold check_source at h
  split_ifs at h
  · exact absurd h (List.not_mem_nil d)
  · rw [List.mem_singleton] at h; subst h; rfl

theorem mem_check_view_code {b : Block} {i : Nat} {d : TypeDiagnostic}
    (h : d ∈ check_view b i) : d.code = "VIEW001" := by
  unfold check_view at h
  split_ifs at h
  · exact absurd h (List.not_mem_nil d)
  · rw [List.mem_singleton] at h; subst h; rfl

theorem mem_check_derive_code {b : Block} {d : TypeDiagnostic}
    (h : d ∈ check_derive b) : d.code = "DER001" := by
  unfold check_derive at h
  split_ifs at h
  · exact absurd h (List.not_mem_nil d)
  · rw [List.mem_singleton] at h; subst h; rfl

theorem mem_check_split_code {b : Block} {d : TypeDiagnostic}
    (h : d ∈ check_split b) : d.code = "SPL001" := by
  unfold check_split at h
  split_ifs at h
  · exact absurd h (List.not_mem_nil d)
  · rw [List.mem_singleton] at h; subst h; rfl

theorem mem_check_export_code {b : Block} {i : Nat} {d : TypeDiagnostic}
    (h : d ∈ check_export b i) : d.code = "EXP001" ∨ d.code = "EXP002" := by
  unfold check_export at h
  rcases List.mem_append.mp h with h | h <;> split_ifs at h
  · exact absurd h (List.not_mem_nil d)
  · rw [List.mem_singleton] at h; subst h; exact Or.inl rfl
  · exact absurd h (List.not_mem_nil d)
  · rw [List.mem_singleton] at h; subst h; exact Or.inr rfl

theorem mem_check_synthesize_code {b : Block} {d : TypeDiagnostic}
    (h : d ∈ check_synthesize b) : d.code = "SYN001" := by
  unfold check_synthesize at h
  rcases List.mem_flatMap.mp h with ⟨s, _, hd⟩
  revert hd
  split_ifs with h1
  · cases s.expr with
    | none => intro hd; exact absurd hd (List.not_mem_nil d)
    | some e =>
      simp only
      split_ifs with h2
      · intro hd; rw [List.mem_singleton] at hd; subst hd; rfl
      · intro hd; exact absurd hd (List.not_mem_nil d)
  · intro hd; exact absurd hd (List.not_mem_nil d)

theorem mem_enumFlatMap {f : α → Nat → List β} {l : List α} {i : Nat}
    {d : β} (h : d ∈ enumFlatMap f l i) : ∃ x ∈ l, ∃ j, d ∈ f x j := by
  induction l generalizing i with
  | nil => exact absurd h (List.not_mem_nil d)
  | cons x xs ih =>
    rw [enumFlatMap] at h
    rcases List.mem_append.mp h with h | h
    · exact ⟨x, by simp, i, h⟩
    · rcases ih h with ⟨y, hy, j, hd⟩
      exact ⟨y, by simp [hy], j, hd⟩

/-- Every diagnostic produced by the structural checks carries a
structural code, so a filter selecting only FN-codes reduces
`allDiagnostics` to the catalog validation. -/
theorem allDiagnostics_filter_fn (doc : Document) (q : TypeDiagnostic → Bool)
    (hq : ∀ d, q d = true → d.code = "FN001" ∨ d.code = "FN002") :
    (allDiagnostics doc).filter q = (check_known_functions doc).filter q := by
  have hcode : ∀ d : TypeDiagnostic, q d = true → d.code ≠ "FN001" →
      d.code ≠ "FN002" → False := fun d hd h1 h2 => by
    rcases hq d hd with h | h
    exacts [h1 h, h2 h]
  have hsrc : (check_source doc.source).filter q = [] :=
    List.filter_eq_nil_iff.mpr fun d hd hqd =>
      hcode d hqd (by rw [mem_check_source_code hd]; decide)
        (by rw [mem_check_source_code hd]; decide)
  have hviews : (enumFlatMap (fun v i => check_view v i) doc.views 0).filter q
      = [] :=
    List.filter_eq_nil_iff.mpr fun d hd hqd => by
      rcases mem_enumFlatMap hd with ⟨v, _, j, hdv⟩
      exact hcode d hqd (by rw [mem_check_view_code hdv]; decide)
        (by rw [mem_check_view_code hdv]; decide)
  have hder : (check_derive doc.derive).filter q = [] :=
    List.filter_eq_nil_iff.mpr fun d hd hqd =>
      hcode d hqd (by rw [mem_check_derive_code hd]; decide)
        (by rw [mem_check_derive_code hd]; decide)
  have hsyn : ((doc.synthesize.map check_synthesize).getD []).filter q
      = [] := by
    cases doc.synthesize with
    | none => rfl
    | some b =>
      exact List.filter_eq_nil_iff.mpr fun d hd hqd =>
        hcode d hqd (by rw [mem_check_synthesize_code hd]; decide)
          (by rw [mem_check_synthesize_code hd]; decide)
  have hspl : ((doc.split.map check_split).getD []).filter q = [] := by
    cases doc.split with
    | none => rfl
    | some b =>
      exact List.filter_eq_nil_iff.mpr fun d hd hqd =>
        hcode d hqd (by rw [mem_check_split_code hd]; decide)
          (by rw [mem_check_split_code hd]; decide)
  have hexp : (enumFlatMap (fun e i => check_export e i) doc.exports 0).filter q
      = [] :=
    List.filter_eq_nil_iff.mpr fun d hd hqd => by
      rcases mem_enumFlatMap hd with ⟨v, _, j, hdv⟩
      rcases mem_check_export_code hdv with h | h <;>
        exact hcode d hqd (by rw [h]; decide) (by rw [h]; decide)
  unfold allDiagnostics
  rw [List.filter_append, List.filter_append, List.filter_append,
    List.filter_append, List.filter_append, List.filter_append,
    hsrc, hviews, hder, hsyn, hspl, hexp]
  rfl

theorem block_fn001 (b : Block) (hb : blockNoGroups b = true) :
    ((checkBlockCalls b).filter fun d => d.code == "FN001").map
        TypeDiagnostic.message
      = ((specBlockOccurrences b).filter fun p =>
            !p.2 && !(BUILTIN_FUNCTIONS_V01.contains p.1)).map
          fun p => fn001Message p.1 := by
  unfold checkBlockCalls specBlockOccurrences
  rw [specStmtListOccurrences_eq_flatMap, filter_flatMap', map_flatMap',
    filter_flatMap', map_flatMap']
  apply flatMap_congr'
  intro st hst
  refine stmt_fn001 b.kind st ?_
  rw [blockNoGroups, List.all_eq_true] at hb
  exact List.isEmpty_iff.mp (hb st hst)

theorem block_fn002 (b : Block) (hb : blockNoGroups b = true) :
    ((checkBlockCalls b).filter fun d => d.code == "FN002").map
        TypeDiagnostic.message
      = ((specBlockOccurrences b).filter fun p =>
            p.2 && !(BUILTIN_FUNCTIONS_V01.contains p.1)).map
          fun p => fn002Message p.1 := by
  unfold checkBlockCalls specBlockOccurrences
  rw [specStmtListOccurrences_eq_flatMap, filter_flatMap', map_flatMap',
    filter_flatMap', map_flatMap']
  apply flatMap_congr'
  intro st hst
  refine stmt_fn002 b.kind st ?_
  rw [blockNoGroups, List.all_eq_true] at hb
  exact List.isEmpty_iff.mp (hb st hst)

theorem doc_fn001 (doc : Document) (h : docNoGroups doc = true) :
    ((check_known_functions doc).filter fun d => d.code == "FN001").map
        TypeDiagnostic.message
      = ((specDocOccurrences doc).filter fun p =>
            !p.2 && !(BUILTIN_FUNCTIONS_V01.contains p.1)).map
          fun p => fn001Message p.1 := by
  simp only [docNoGroups, Bool.and_eq_true] at h
  obtain ⟨⟨⟨⟨⟨h1, h2⟩, h3⟩, h4⟩, h5⟩, h6⟩ := h
  have hbl : ∀ l : List Block, l.all blockNoGroups = true →
      ((l.flatMap checkBlockCalls).filter fun d =>
          d.code == "FN001").map TypeDiagnostic.message
        = ((l.flatMap specBlockOccurrences).filter fun p =>
            !p.2 && !(BUILTIN_FUNCTIONS_V01.contains p.1)).map
          fun p => fn001Message p.1 := by
    intro l hl
    rw [filter_flatMap', map_flatMap', filter_flatMap', map_flatMap']
    apply flatMap_congr'
    intro v hv
    rw [List.all_eq_true] at hl
    exact block_fn001 v (hl v hv)
  have hopt : ∀ o : Option Block, (o.map blockNoGroups).getD true = true →
      (((o.map checkBlockCalls).getD []).filter fun d =>
          d.code == "FN001").map TypeDiagnostic.message
        = (((o.map specBlockOccurrences).getD []).filter fun p =>
            !p.2 && !(BUILTIN_FUNCTIONS_V01.contains p.1)).map
          fun p => fn001Message p.1 := by
    intro o ho
    cases o with
    | none => rfl
    | some b =>
      simp only [Option.map_some, Option.getD_some] at ho ⊢
      exact block_fn001 b ho
  unfold check_known_functions specDocOccurrences
  rw [List.filter_append, List.filter_append, List.filter_append,
    List.filter_append, List.filter_append, List.map_append,
    List.map_append, List.map_append, List.map_append, List.map_append,
    List.filter_append, List.filter_append, List.filter_append,
    List.filter_append, List.filter_append, List.map_append,
    List.map_append, List.map_append, List.map_append, List.map_append]
  rw [block_fn001 doc.source h1, block_fn001 doc.derive h3,
    hbl doc.views h2, hbl doc.exports h6, hopt doc.synthesize h4,
    hopt doc.split h5]

theorem doc_fn002 (doc : Document) (h : docNoGroups doc = true) :
    ((check_known_functions doc).filter fun d => d.code == "FN002").map
        TypeDiagnostic.message
      = ((specDocOccurrences doc).filter fun p =>
            p.2 && !(BUILTIN_FUNCTIONS_V01.contains p.1)).map
          fun p => fn002Message p.1 := by
  simp only [docNoGroups, Bool.and_eq_true] at h
  obtain ⟨⟨⟨⟨⟨h1, h2⟩, h3⟩, h4⟩, h5⟩, h6⟩ := h
  have hbl : ∀ l : List Block, l.all blockNoGroups = true →
      ((l.flatMap checkBlockCalls).filter fun d =>
          d.code == "FN002").map TypeDiagnostic.message
        = ((l.flatMap specBlockOccurrences).filter fun p =>
            p.2 && !(BUILTIN_FUNCTIONS_V01.contains p.1)).map
          fun p => fn002Message p.1 := by
    intro l hl
    rw [filter_flatMap', map_flatMap', filter_flatMap', map_flatMap']
    apply flatMap_congr'
    intro v hv
    rw [List.all_eq_true] at hl
    exact block_fn002 v (hl v hv)
  have hopt : ∀ o : Option Block, (o.map blockNoGroups).getD true = true →
      (((o.map checkBlockCalls).getD []).filter fun d =>
          d.code == "FN002").map TypeDiagnostic.message
        = (((o.map specBlockOccurrences).getD []).filter fun p =>
            p.2 && !(BUILTIN_FUNCTIONS_V01.contains p.1)).map
          fun p => fn002Message p.1 := by
    intro o ho
    cases o with
    | none => rfl
    | some b =>
      simp only [Option.map_some, Option.getD_some] at ho ⊢
      exact block_fn002 b ho
  unfold check_known_functions specDocOccurrences
  rw [List.filter_append, List.filter_append, List.filter_append,
    List.filter_append, List.filter_append, List.map_append,
    List.map_append, List.map_append, List.map_append, List.map_append,
    List.filter_append, List.filter_append, List.filter_append,
    List.filter_append, List.filter_append, List.map_append,
    List.map_append, List.map_append, List.map_append, List.map_append]
  rw [block_fn002 doc.source h1, block_fn002 doc.derive h3,
    hbl doc.views h2, hbl doc.exports h6, hopt doc.synthesize h4,
    hopt doc.split h5]

/-! ## Claim theorems -/

/-- C1.  The claim states that `select A; select B;` yields the graph
nodes of type B.  On the code it does not: the evaluator's select branch
reads `stmt.data["type"]`, which for every parser-produced select
statement is the statement tag `"select"` (the parser stores the selected
name under `"target"`), so the view evaluates to `nodes_of_type("select")`
— here the empty list — although the graph has a node of type `B`.  This
contradicts the specification's selection-phase description: a code bug
(a key mix-up between parser output and evaluator lookup). -/
theorem claim_C1_select_reads_stmt_tag :
    apply_views trivOracle graphC1 docC1 = .ok []
      ∧ graphC1.nodes_of_type "B" = [⟨"n1", "B"⟩]
      ∧ graphC1.nodes_of_type "select" = [] :=
  ⟨rfl, rfl, rfl⟩

/-- C2.  For the three-entity model and the recipe's content, evaluation
returns exactly 3 rows, but each row is `{"guid": <id>}` only: the
feature `x = 3` never appears, because the grammar's `assign_stmt`
production tags the derive statement `"assign"` while `_apply_derive`
only processes statements tagged `"feature"`.  This contradicts the
derivation-phase specification (and the checker's own expectation that a
derive block holds `feature`/`emit` statements): a code bug. -/
theorem claim_C2_derive_assign_ignored :
    evaluate trivOracle graphC2 docC2
      = .ok [[("guid", .str "g1")], [("guid", .str "g2")],
             [("guid", .str "g3")]] := rfl

/-- C3.  The claim states every AST literal evaluates to its value and
never fails.  On the code, only `"null"` literals do: the AST builder
emits literal kinds `"number"`, `"string"`, `"bool"`, `"null"`, while the
evaluator handles only the kinds `"literal"` (which the builder never
produces) and `"null"`, so number/string/bool literals raise
`EvaluationError("Unsupported expression kind: ...")`.  The code
contradicts the specification ("literals return their value"): a code
bug (a kind-tag drift between `ast.py` and `evaluator.py`). -/
theorem claim_C3_literal_kinds_unsupported (m : ModelOracle)
    (g : SemanticGraph) (node : NodeRef) (q : Rat) (s : String) (b : Bool) :
    eval_expr m g node (Expr.from_raw (parser_number q))
        = .error (.unsupportedExprKind "number")
      ∧ eval_expr m g node (Expr.from_raw (parser_string s))
        = .error (.unsupportedExprKind "string")
      ∧ eval_expr m g node (Expr.from_raw (parser_bool b))
        = .error (.unsupportedExprKind "bool")
      ∧ eval_expr m g node (Expr.from_raw parser_null) = .ok .null :=
  ⟨rfl, rfl, rfl, rfl⟩

/-- C4.  Confirmed: every access chain the parser can produce starts with
a part of kind `"ident"`, and the evaluator returns `None` the moment it
meets a part whose kind is not `"attr"` — so every parser-produced access
chain evaluates to null against every node and every model collaborator
(the result does not depend on the collaborator, i.e. no named-field
lookup is ever performed). -/
theorem claim_C4_access_chain_evaluates_null (base : String)
    (rest : List AccessItem) (m : ModelOracle) (g : SemanticGraph)
    (node : NodeRef) :
    (∃ ps, Expr.from_raw (parser_access base rest)
        = .access (PartG.ident base :: ps))
      ∧ eval_expr m g node (Expr.from_raw (parser_access base rest))
        = .ok .null :=
  ⟨⟨_, rfl⟩, rfl⟩

/-- C5.  Confirmed: the checker accumulates the complete diagnostic list
across every block and raises (once) exactly when that list is non-empty;
otherwise it returns normally with no diagnostics produced. -/
theorem claim_C5_checker_batches_diagnostics (doc : Document) :
    (allDiagnostics doc = [] ∧ type_check_document doc = .ok ())
      ∨ (allDiagnostics doc ≠ []
          ∧ type_check_document doc = .error (allDiagnostics doc)) := by
  by_cases h : allDiagnostics doc = []
  · exact Or.inl ⟨h, by simp [type_check_document, h]⟩
  · exact Or.inr ⟨h, by simp [type_check_document, h]⟩

/-- C6 counterexample.  The claim quantifies over every document and every
occurrence in any block's expressions; on this document the derive block's
`node_features` grouping statement nests a feature whose expression calls
the unknown function `bogus.fn`, yet the checker emits no diagnostic at
all and the check succeeds — the catalog walk never descends into nested
feature statements. -/
theorem claim_C6_fn_catalog_counterexample :
    type_check_document docC6bad = .ok ()
      ∧ specUnknownOccurrences docC6bad = [("bogus.fn", false)]
      ∧ BUILTIN_FUNCTIONS_V01.contains "bogus.fn" = false :=
  ⟨rfl, rfl, rfl⟩

/-- C6 amended.  For every document none of whose statements carries
nested feature statements (no populated `node_features`/`edge_features`
grouping statement — the case the counterexample excludes), every
occurrence of a function name outside the closed catalog in any block's
expressions — nested call arguments and the operator/arguments of a `by`
statement included — yields exactly one diagnostic per occurrence, FN001
for expression calls and FN002 for a `by` operator name (the produced
message lists coincide with the per-occurrence message lists, in order);
and when at least one such occurrence exists the overall check fails with
the batched diagnostic list. -/
theorem claim_C6_fn_catalog_per_occurrence (doc : Document)
    (h : docNoGroups doc = true) :
    (((allDiagnostics doc).filter fun d => d.code == "FN001").map
        TypeDiagnostic.message
      = ((specUnknownOccurrences doc).filter fun p => !p.2).map
          fun p => fn001Message p.1)
    ∧ (((allDiagnostics doc).filter fun d => d.code == "FN002").map
        TypeDiagnostic.message
      = ((specUnknownOccurrences doc).filter fun p => p.2).map
          fun p => fn002Message p.1)
    ∧ (specUnknownOccurrences doc ≠ [] →
        type_check_document doc = .error (allDiagnostics doc)
          ∧ allDiagnostics doc ≠ []) := by
  have hq1 : ∀ d : TypeDiagnostic, (d.code == "FN001") = true →
      d.code = "FN001" ∨ d.code = "FN002" := fun d hd =>
    Or.inl (by simpa using hd)
  have hq2 : ∀ d : TypeDiagnostic, (d.code == "FN002") = true →
      d.code = "FN001" ∨ d.code = "FN002" := fun d hd =>
    Or.inr (by simpa using hd)
  have s1 : (specUnknownOccurrences doc).filter (fun p => !p.2)
      = (specDocOccurrences doc).filter fun p =>
          !p.2 && !(BUILTIN_FUNCTIONS_V01.contains p.1) := by
    unfold specUnknownOccurrences
    exact List.filter_filter _ _
  have s2 : (specUnknownOccurrences doc).filter (fun p => p.2)
      = (specDocOccurrences doc).filter fun p =>
          p.2 && !(BUILTIN_FUNCTIONS_V01.contains p.1) := by
    unfold specUnknownOccurrences
    exact List.filter_filter _ _
  have c1 : ((allDiagnostics doc).filter fun d => d.code == "FN001").map
        TypeDiagnostic.message
      = ((specUnknownOccurrences doc).filter fun p => !p.2).map
          fun p => fn001Message p.1 := by
    rw [allDiagnostics_filter_fn doc _ hq1, s1]
    exact doc_fn001 doc h
  have c2 : ((allDiagnostics doc).filter fun d => d.code == "FN002").map
        TypeDiagnostic.message
      = ((specUnknownOccurrences doc).filter fun p => p.2).map
          fun p => fn002Message p.1 := by
    rw [allDiagnostics_filter_fn doc _ hq2, s2]
    exact doc_fn002 doc h
  refine ⟨c1, c2, fun hne => ?_⟩
  have hads : allDiagnostics doc ≠ [] := by
    have hsplit : ((specUnknownOccurrences doc).filter fun p => !p.2) ≠ []
        ∨ ((specUnknownOccurrences doc).filter fun p => p.2) ≠ [] := by
      rcases hl : specUnknownOccurrences doc with _ | ⟨x, xs⟩
      · exact absurd hl hne
      · by_cases hx : x.2 = true
        · right; simp [List.filter_cons, hx]
        · left
          rw [Bool.not_eq_true] at hx
          simp [List.filter_cons, hx]
    intro hnil
    rcases hsplit with hs | hs
    · apply hs
      have := c1
      rw [hnil] at this
      simpa using (List.map_eq_nil_iff.mp this.symm)
    · apply hs
      have := c2
      rw [hnil] at this
      simpa using (List.map_eq_nil_iff.mp this.symm)
  exact ⟨by simp [type_check_document, List.isEmpty_iff, hads], hads⟩

/-- C6 witness: a derive feature calling the unknown `nope.fn` yields the
single FN001 message and the check fails, by the amended theorem applied
at `docC6wit`. -/
theorem claim_C6_fn_catalog_per_occurrence_witness :
    (((allDiagnostics docC6wit).filter fun d => d.code == "FN001").map
        TypeDiagnostic.message
      = ((specUnknownOccurrences docC6wit).filter fun p => !p.2).map
          fun p => fn001Message p.1)
    ∧ (((allDiagnostics docC6wit).filter fun d => d.code == "FN002").map
        TypeDiagnostic.message
      = ((specUnknownOccurrences docC6wit).filter fun p => p.2).map
          fun p => fn002Message p.1)
    ∧ (specUnknownOccurrences docC6wit ≠ [] →
        type_check_document docC6wit = .error (allDiagnostics docC6wit)
          ∧ allDiagnostics docC6wit ≠ []) :=
  claim_C6_fn_catalog_per_occurrence docC6wit rfl

/-- C7.  Confirmed: `Document.from_parsed` fails exactly when the source
block is missing, the derive block is missing, or the export list is
empty, independent of all other content of the parsed input. -/
theorem claim_C7_from_parsed_failure_condition (p : Parsed) :
    (∃ d, Document.from_parsed p = .ok d)
      ↔ (p.source.isSome ∧ p.derive.isSome ∧ p.exports ≠ []) := by
  unfold Document.from_parsed
  split_ifs with h1 h2 h3
  · simp_all [Option.isNone_iff_eq_none]
  · simp_all [Option.isNone_iff_eq_none]
  · simp_all [Option.isNone_iff_eq_none, List.isEmpty_iff]
  · simp_all [Option.isNone_iff_eq_none, List.isEmpty_iff,
      Option.isSome_iff_exists]
    exact ⟨Option.ne_none_iff_exists'.mp h1, Option.ne_none_iff_exists'.mp h2⟩

/-- C8.  Confirmed: for every graph built from any model snapshot and any
relation allow-list, (i) both endpoints of every stored edge are in the
node index, (ii) the node index has no duplicate guids, and the node
stored under a guid comes from the first model entity carrying that guid
(first occurrence wins), and (iii) for every guid and every optional kind
filter, `degree` equals the number of out-edges plus the number of
in-edges under the same filter. -/
theorem claim_C8_graph_invariants (m : ModelSnapshot)
    (wl : Option (List String)) :
    (∀ e ∈ (buildGraph m wl).edges,
        (buildGraph m wl).hasNode e.source = true
          ∧ (buildGraph m wl).hasNode e.target = true)
      ∧ ((buildGraph m wl).nodes.map NodeRef.guid).Nodup
      ∧ (∀ gid, gid ≠ "" →
          (buildGraph m wl).node gid
            = (m.entities.find? fun e => e.guid == gid).map
                fun e => ⟨e.guid, e.isA⟩)
      ∧ (∀ gid k, (buildGraph m wl).degree gid k
          = ((buildGraph m wl).out_edges gid k).length
            + ((buildGraph m wl).in_edges gid k).length) := by
  refine ⟨buildGraph_edgeOk m wl, ?_, ?_, ?_⟩
  · rw [show (buildGraph m wl).nodes
        = (indexNodes m.entities SemanticGraph.empty).nodes from
        buildGraph_nodes m wl]
    exact indexNodes_nodup _ _ (by simp [SemanticGraph.empty])
  · intro gid hgid
    have hn : (buildGraph m wl).node gid
        = (indexNodes m.entities SemanticGraph.empty).node gid := by
      unfold SemanticGraph.node
      rw [buildGraph_nodes]
    rw [hn, indexNodes_node _ _ _ hgid]
    simp [SemanticGraph.node, SemanticGraph.empty, Option.orElse]
  · intro gid k
    cases k <;> rfl

/-- C8 witness: in the witness snapshot the duplicate guid `a` keeps its
first type (`IfcWall`), obtained by applying the invariant theorem at a
non-empty guid. -/
theorem claim_C8_graph_invariants_witness :
    (buildGraph snapC8 none).node "a" = some ⟨"a", "IfcWall"⟩ := by
  have h := (claim_C8_graph_invariants snapC8 none).2.2.1 "a" (by decide)
  rw [h]; rfl

/-- C9 counterexample.  The claim states that for all values `a` and `b`
with `b ≠ 0`, `a / b` returns the quotient; at `a = 1`, `b = null`
(which is not equal to 0), the underlying division raises `TypeError`
instead of returning anything. -/
theorem claim_C9_division_counterexample :
    apply_binop (some "/") (.num 1) .null = .error .typeMismatch
      ∧ pyEq Value.null (.num 0) = false :=
  ⟨rfl, rfl⟩

/-- C9 amended.  Evaluating `a / b` returns null — and never raises —
whenever `b` equals 0 under the runtime's equality (so also for
`b = false`); when both operands are numeric (numbers or booleans) and
`b` is not equal to 0 it returns the quotient; when either operand is
non-numeric and `b` is not equal to 0, the division raises a type
error. -/
theorem claim_C9_division_by_zero (a b : Value) :
    (pyEq b (.num 0) = true → apply_binop (some "/") a b = .ok .null)
      ∧ (∀ x y, toNum a = some x → toNum b = some y →
          pyEq b (.num 0) = false →
          apply_binop (some "/") a b = .ok (.num (x / y)))
      ∧ ((toNum a = none ∨ toNum b = none) → pyEq b (.num 0) = false →
          apply_binop (some "/") a b = .error .typeMismatch) := by
  have hd : apply_binop (some "/") a b = pyDiv a b := rfl
  refine ⟨fun h => ?_, fun x y hx hy h => ?_, fun h hne => ?_⟩
  · simp [hd, pyDiv, h]
  · simp [hd, pyDiv, h, hx, hy]
  · rcases h with h | h
    · cases hb : toNum b <;> simp [hd, pyDiv, hne, h, hb]
    · cases ha : toNum a <;> simp [hd, pyDiv, hne, h, ha]

/-- C9 witness: `6 / 3` evaluates to the quotient 2. -/
theorem claim_C9_division_by_zero_witness :
    apply_binop (some "/") (.num 6) (.num 3) = .ok (.num 2) := by
  have h := (claim_C9_division_by_zero (.num 6) (.num 3)).2.1 6 3 rfl rfl
    (by decide)
  rw [h]; norm_num

/-- C10.  Confirmed: `pset.get` called with an argument count other than
2 returns null from the dispatch table rather than raising. -/
theorem claim_C10_pset_get_arity (m : ModelOracle) (g : SemanticGraph)
    (node : NodeRef) (args : List Value) (h : args.length ≠ 2) :
    dispatch_function m g (some "pset.get") node args = .ok .null := by
  match args with
  | [] => rfl
  | [_] => rfl
  | [_, _] => exact absurd rfl h
  | _ :: _ :: _ :: _ => rfl

/-- C10 witness: a zero-argument `pset.get` call evaluates to null. -/
theorem claim_C10_pset_get_arity_witness :
    dispatch_function trivOracle SemanticGraph.empty (some "pset.get")
      ⟨"n", "T"⟩ [] = .ok .null :=
  claim_C10_pset_get_arity trivOracle SemanticGraph.empty ⟨"n", "T"⟩ []
    (by decide)

end OpenBIMDL
